import Mathlib

/-!
Shallow embedding of `twine/commands/upload.py` (the upload orchestration
workflow of twine): distribution-file resolution (`find_dists`,
`group_wheel_files_first`), the duplicate-response classifier
(`skip_upload`), and the per-file upload orchestrator (`upload`).

Python strings are modelled as `List Char` (a Python `str` is a sequence
of code points). External collaborators (the HTTP repository client, the
`PackageFile` abstraction, configuration resolution, and
`utils.check_status_code`) are modelled as parameters: pure functions
supplied through an `Env` record. The orchestrator is embedded as a pure
function producing the ordered trace of observable side effects (prints,
repository calls, signing operations) together with the raised
exception, if any.
-/

namespace Twine

/-- A Python string: a sequence of code points. -/
abbrev Str := List Char

/-- Python `s.startswith(p)` for a single prefix `p`. -/
def startsWith (s p : Str) : Bool := p.isPrefixOf s

/-- Python `s.endswith(p)`. -/
def endsWith (s p : Str) : Bool := p.isSuffixOf s

/-- The wheel extension `".whl"`. -/
def whlExt : Str := ".whl".toList

/-- The signature extension `".asc"`. -/
def ascExt : Str := ".asc".toList

/-- An HTTP response as the orchestrator observes it: status code, reason
text, the redirect flag, and the `location` header. -/
structure Response where
  status_code : Nat
  reason : Str
  is_redirect : Bool
  location : Str
  deriving DecidableEq, Repr

/-- The slice of `PackageFile` the orchestrator reads: the base filename
and the filename its detached signature would carry. -/
structure Package where
  basefilename : Str
  signed_basefilename : Str
  deriving DecidableEq, Repr

/-- `skip_upload(response, skip_existing, package)` from
`twine/commands/upload.py`: decides whether a response to an upload
attempt means the file already exists and should be skipped. -/
def skip_upload (response : Response) (skip_existing : Bool) (package : Package) : Bool :=
  let filename := package.basefilename
  let msg0 : Str := "A file named \"".toList ++ filename ++ "\" already exists for".toList
  let msg1 : Str := "File already exists".toList
  skip_existing && (response.status_code == 409 ||
    (response.status_code == 400 &&
      (startsWith response.reason msg0 || startsWith response.reason msg1)))

/-- The sort key used by `group_wheel_files_first`:
`-1 if x.endswith(".whl") else 0`. -/
def whlKey (x : Str) : Int :=
  if endsWith x whlExt then -1 else 0

/-- The comparison induced by sorting on `whlKey` in ascending order. -/
def whlLe (x y : Str) : Prop := whlKey x ≤ whlKey y

instance : DecidableRel whlLe := fun x y => Int.decLe (whlKey x) (whlKey y)

instance : IsTotal Str whlLe := ⟨fun x y => Int.le_total (whlKey x) (whlKey y)⟩

instance : IsTrans Str whlLe := ⟨fun _ _ _ h h' => le_trans h h'⟩

/-- `group_wheel_files_first(files)`: returns `files` unchanged when no
filename ends in `.whl`; otherwise performs Python's stable
`files.sort(key=lambda x: -1 if x.endswith(".whl") else 0)`, embedded as
a stable ascending sort on the same key. -/
def group_wheel_files_first (files : List Str) : List Str :=
  if !(files.any (fun fname => endsWith fname whlExt)) then files
  else List.insertionSort whlLe files

/-- The filesystem as `find_dists` observes it: `os.path.exists` and
`glob.glob`. -/
structure FileSystem where
  pathExists : Str → Bool
  glob : Str → List Str

/-- The loop of `find_dists`: builds the `uploads` list in input order,
raising `ValueError` (modelled as `Except.error` carrying the message)
when a non-existing path expands to no glob matches. -/
def find_dists_loop (fs : FileSystem) : List Str → Except Str (List Str)
  | [] => Except.ok []
  | filename :: rest =>
    if fs.pathExists filename then
      (find_dists_loop fs rest).map (fun uploads => filename :: uploads)
    else
      let files := fs.glob filename
      if files.isEmpty then
        Except.error ("Cannot find file (or expand pattern): '".toList ++
          filename ++ "'".toList)
      else
        (find_dists_loop fs rest).map (fun uploads => files ++ uploads)

/-- `find_dists(dists)` from `twine/commands/upload.py`. -/
def find_dists (fs : FileSystem) (dists : List Str) : Except Str (List Str) :=
  (find_dists_loop fs dists).map group_wheel_files_first

/-- `os.path.basename`: the part of the path after the last `/`. -/
def basename (p : Str) : Str :=
  (p.reverse.takeWhile (fun c => c != '/')).reverse

/-- One observable side effect of the orchestrator, in program order. -/
inductive Event where
  | message (msg : Str)
  | createRepository
  | packageIsUploaded (basefilename : Str)
  | addGpgSignature (filename : Str) (signatureFilePath : Str)
      (signatureFileName : Str)
  | signCall (filename : Str) (signWith : Str) (identity : Option Str)
  | uploadCall (filename : Str)
  | checkStatusCode (statusCode : Nat) (verbose : Bool)
  | close
  deriving DecidableEq, Repr

/-- An exception escaping the orchestrator. -/
inductive UploadError where
  | valueError (msg : Str)
  | redirectDetected (msg : Str)
  | statusError (statusCode : Nat)
  | repositoryURLError
  deriving DecidableEq, Repr

/-- The relevant fields of the resolved `upload_settings` object. -/
structure Settings where
  comment : Option Str
  skip_existing : Bool
  sign : Bool
  sign_with : Str
  identity : Option Str
  verbose : Bool
  repository_url : Str

/-- The external collaborators, as pure functions:
`PackageFile.from_filename`, the repository client's
`package_is_uploaded` and `upload` (the response each package receives),
and `utils.check_status_code`.

`status_ok` is modelled from the spec: `utils.check_status_code` lives in
`twine/utils.py`, outside the embedded source file; per the spec it
validates that the HTTP status represents success and raises otherwise,
so it is abstracted as the predicate deciding whether that call returns
normally. `repository_url_ok` likewise abstracts `check_repository_url`
of the excluded settings collaborator. -/
structure Env where
  from_filename : Str → Option Str → Package
  package_is_uploaded : Package → Bool
  upload_resp : Package → Response
  status_ok : Response → Bool
  repository_url_ok : Bool

/-- The skip message printed for a file:
`"  Skipping {0} because it appears to already exist"`. -/
def skipMessage (package : Package) : Str :=
  "  Skipping ".toList ++ package.basefilename ++
    " because it appears to already exist".toList

/-- The message of the `RedirectDetected` exception:
`'"{0}" attempted to redirect to "{1}" during upload. Aborting...'`. -/
def redirectMessage (repository_url : Str) (resp : Response) : Str :=
  "\"".toList ++ repository_url ++ "\" attempted to redirect to \"".toList ++
    resp.location ++ "\" during upload. Aborting...".toList

/-- The events of the pre-flight skip-existing check: the short-circuit
`upload_settings.skip_existing and repository.package_is_uploaded(package)`
calls `package_is_uploaded` exactly when `skip_existing` is true. -/
def preflightEvents (s : Settings) (package : Package) : List Event :=
  if s.skip_existing then [Event.packageIsUploaded package.basefilename] else []

/-- The events of the signature-attachment step: an explicit signature
matched by `signed_basefilename` wins; otherwise `package.sign` runs
exactly when signing is enabled. -/
def signatureEvents (s : Settings) (sigs : Str → Option Str) (filename : Str)
    (package : Package) : List Event :=
  match sigs package.signed_basefilename with
  | some sigFile =>
    [Event.addGpgSignature filename sigFile package.signed_basefilename]
  | none =>
    if s.sign then [Event.signCall filename s.sign_with s.identity] else []

/-- The per-file body of the `for filename in uploads` loop in
`upload()`: the events this file produces and the exception it raises,
if any (`none` means fall through or `continue`). -/
def process_file (s : Settings) (env : Env) (sigs : Str → Option Str)
    (repository_url : Str) (filename : Str) : List Event × Option UploadError :=
  let package := env.from_filename filename s.comment
  if s.skip_existing && env.package_is_uploaded package then
    (preflightEvents s package ++ [Event.message (skipMessage package)], none)
  else
    let resp := env.upload_resp package
    let base := preflightEvents s package ++ signatureEvents s sigs filename package ++
      [Event.uploadCall filename]
    if resp.is_redirect then
      (base, some (UploadError.redirectDetected (redirectMessage repository_url resp)))
    else if skip_upload resp s.skip_existing package then
      (base ++ [Event.message (skipMessage package)], none)
    else
      (base ++ [Event.checkStatusCode resp.status_code s.verbose],
        if env.status_ok resp then none
        else some (UploadError.statusError resp.status_code))

/-- The `for filename in uploads` loop of `upload()`: processes files in
order, stopping as soon as one raises. -/
def upload_loop (s : Settings) (env : Env) (sigs : Str → Option Str)
    (repository_url : Str) : List Str → List Event × Option UploadError
  | [] => ([], none)
  | f :: rest =>
    match process_file s env sigs repository_url f with
    | (evs, some e) => (evs, some e)
    | (evs, none) =>
      let r := upload_loop s env sigs repository_url rest
      (evs ++ r.1, r.2)

/-- The concatenated traces of a list of files each processed by
`process_file`, in order. -/
def tracesOf (s : Settings) (env : Env) (sigs : Str → Option Str)
    (repository_url : Str) : List Str → List Event
  | [] => []
  | g :: rest =>
    (process_file s env sigs repository_url g).1 ++ tracesOf s env sigs repository_url rest

/-- The signature dictionary of `upload()`:
`dict((os.path.basename(d), d) for d in dists if d.endswith(".asc"))`,
as a lookup function (later entries overwrite earlier ones). -/
def signaturesOf (dists : List Str) (key : Str) : Option Str :=
  (dists.filter (fun d => endsWith d ascExt)).foldl
    (fun acc d => if basename d = key then some d else acc) none

/-- `upload(upload_settings, dists)` from `twine/commands/upload.py`,
returning the ordered trace of observable effects and the exception, if
any. -/
def upload (s : Settings) (env : Env) (fs : FileSystem) (dists : List Str) :
    List Event × Option UploadError :=
  match find_dists fs dists with
  | Except.error m => ([], some (UploadError.valueError m))
  | Except.ok resolved =>
    let uploads := resolved.filter (fun i => !(endsWith i ascExt))
    if !env.repository_url_ok then ([], some UploadError.repositoryURLError)
    else
      let repository_url := s.repository_url
      let header : List Event :=
        [Event.message ("Uploading distributions to ".toList ++ repository_url),
          Event.createRepository]
      match upload_loop s env (signaturesOf resolved) repository_url uploads with
      | (evs, some e) => (header ++ evs, some e)
      | (evs, none) => (header ++ evs ++ [Event.close], none)

/-- Classifies the signature-attachment operations on a package:
`add_gpg_signature` and `sign`. -/
def isSigAttach : Event → Bool
  | Event.addGpgSignature _ _ _ => true
  | Event.signCall _ _ _ => true
  | _ => false

/-- Classifies the calls made on the repository client:
`package_is_uploaded`, `upload` and `close`. -/
def isRepoCall : Event → Bool
  | Event.packageIsUploaded _ => true
  | Event.uploadCall _ => true
  | Event.close => true
  | _ => false

/-- Fixture: a settings object with skip-existing disabled and signing
enabled. -/
def sBase : Settings where
  comment := none
  skip_existing := false
  sign := true
  sign_with := "gpg".toList
  identity := none
  verbose := false
  repository_url := "https://example.org/legacy/".toList

/-- Fixture: `sBase` with skip-existing enabled. -/
def sSkip : Settings := { sBase with skip_existing := true }

/-- Fixture: a package derived from a filename the way the fixtures use
it: base name plus the `.asc`-suffixed signed name. -/
def pkgOf (f : Str) : Package where
  basefilename := basename f
  signed_basefilename := basename f ++ ascExt

/-- Fixture: a plain 200 success response. -/
def respOk : Response where
  status_code := 200
  reason := "OK".toList
  is_redirect := false
  location := []

/-- Fixture: a redirect response. -/
def respRedirect : Response where
  status_code := 301
  reason := "Moved Permanently".toList
  is_redirect := true
  location := "http://other.example/legacy/".toList

/-- Fixture: a 409 duplicate-file response. -/
def resp409 : Response where
  status_code := 409
  reason := "Conflict".toList
  is_redirect := false
  location := []

/-- Fixture: collaborators that always succeed. -/
def envOk : Env where
  from_filename := fun f _ => pkgOf f
  package_is_uploaded := fun _ => false
  upload_resp := fun _ => respOk
  status_ok := fun r => r.status_code == 200
  repository_url_ok := true

/-- Fixture: every upload response is a redirect. -/
def envRedirect : Env := { envOk with upload_resp := fun _ => respRedirect }

/-- Fixture: every upload response is a 409 duplicate. -/
def env409 : Env := { envOk with upload_resp := fun _ => resp409 }

/-- Fixture: the pre-flight existence check reports every package as
already uploaded. -/
def envUploaded : Env := { envOk with package_is_uploaded := fun _ => true }

/-- Fixture: only `b.tar.gz` gets a redirect response; other files
succeed. -/
def envMixed : Env :=
  { envOk with
    upload_resp := fun p =>
      if p.basefilename == "b.tar.gz".toList then respRedirect else respOk }

/-- Fixture: a filesystem where every path exists. -/
def fsAll : FileSystem where
  pathExists := fun _ => true
  glob := fun _ => []

/-- Fixture: a filesystem with exactly two files and no glob matches. -/
def fsTwo : FileSystem where
  pathExists := fun p => p == "a.tar.gz".toList || p == "b.tar.gz".toList
  glob := fun _ => []

/-- Fixture: a filesystem with one file whose name contains a glob
metacharacter, and a glob function that would return a different answer
for it. -/
def fsStar : FileSystem where
  pathExists := fun p => p == "a*b.tar.gz".toList
  glob := fun _ => []

/-- Fixture: `fsStar` with the glob answer changed only on existing
paths. -/
def fsStar2 : FileSystem where
  pathExists := fun p => p == "a*b.tar.gz".toList
  glob := fun p => if p == "a*b.tar.gz".toList then ["zz".toList] else []

end Twine

namespace Twine

lemma whlKey_of_whl {f : Str} (h : endsWith f whlExt = true) : whlKey f = -1 := by
  simp [whlKey, h]

lemma whlKey_of_not_whl {f : Str} (h : ¬ endsWith f whlExt = true) : whlKey f = 0 := by
  simp [whlKey, h]

lemma whlKey_of_whl_false {f : Str} (h : endsWith f whlExt = false) : whlKey f = 0 := by
  simp [whlKey, h]

/-- A list sorted by the two-valued wheel key is its wheel entries
followed by its non-wheel entries. -/
lemma sorted_whlLe_eq_filter_append :
    ∀ {l : List Str}, l.Sorted whlLe →
      l = l.filter (fun f => endsWith f whlExt) ++
        l.filter (fun f => !(endsWith f whlExt)) := by
  intro l h
  induction l with
  | nil => rfl
  | cons x t ih =>
    have hx := List.rel_of_sorted_cons h
    have ht := ih h.of_cons
    by_cases hw : endsWith x whlExt = true
    · rw [List.filter_cons_of_pos (by simpa using hw),
        List.filter_cons_of_neg (by simpa using hw), List.cons_append]
      exact congrArg (x :: ·) ht
    · have hall : ∀ y ∈ t, ¬ endsWith y whlExt = true := by
        intro y hy hwy
        have hle : whlKey x ≤ whlKey y := hx y hy
        rw [whlKey_of_not_whl hw, whlKey_of_whl hwy] at hle
        omega
      rw [List.filter_cons_of_neg (by simpa using hw),
        List.filter_cons_of_pos (by simpa using hw),
        List.filter_eq_nil_iff.mpr (by simpa using hall),
        List.filter_eq_self.mpr (by simpa using hall), List.nil_append]

/-- Stability of the sort: a filter whose members all compare `whlLe`
to one another passes through the sort unchanged. -/
lemma insertionSort_whlLe_filter (files : List Str) (p : Str → Bool)
    (hp : ∀ x y, p x = true → p y = true → whlLe x y) :
    (List.insertionSort whlLe files).filter p = files.filter p := by
  have hpair : (files.filter p).Pairwise whlLe :=
    List.pairwise_of_forall_mem_list fun x hx y hy =>
      hp x y (List.mem_filter.mp hx).2 (List.mem_filter.mp hy).2
  have hsub : List.Sublist (files.filter p) (List.insertionSort whlLe files) :=
    List.sublist_insertionSort hpair (List.filter_sublist files)
  have hsub2 : List.Sublist (files.filter p) ((List.insertionSort whlLe files).filter p) := by
    have h1 := hsub.filter p
    rwa [List.filter_eq_self.mpr (fun a ha => (List.mem_filter.mp ha).2)] at h1
  have hlen : ((List.insertionSort whlLe files).filter p).length =
      (files.filter p).length :=
    ((List.perm_insertionSort whlLe files).filter p).length_eq
  exact (hsub2.eq_of_length hlen.symm).symm

/-- C4: `group_wheel_files_first` returns the list unchanged when no
filename ends in `.whl`, and otherwise performs a stable partition:
all `.whl` filenames first, then the rest, each group keeping its
original relative order. -/
theorem group_wheel_files_first_stable_partition (files : List Str) :
    (files.any (fun f => endsWith f whlExt) = false →
      group_wheel_files_first files = files) ∧
    (files.any (fun f => endsWith f whlExt) = true →
      group_wheel_files_first files =
        files.filter (fun f => endsWith f whlExt) ++
          files.filter (fun f => !(endsWith f whlExt))) := by
  constructor
  · intro h
    simp [group_wheel_files_first, h]
  · intro h
    have hout := sorted_whlLe_eq_filter_append (List.sorted_insertionSort whlLe files)
    have h1 := insertionSort_whlLe_filter files (fun f => endsWith f whlExt)
      (fun x y hx hy => by simp [whlLe, whlKey_of_whl hx, whlKey_of_whl hy])
    have h2 := insertionSort_whlLe_filter files (fun f => !(endsWith f whlExt))
      (fun x y hx hy => by
        simp only [Bool.not_eq_true'] at hx hy
        show whlKey x ≤ whlKey y
        rw [whlKey_of_whl_false hx, whlKey_of_whl_false hy])
    rw [group_wheel_files_first, h]
    simpa [h1, h2] using hout

/-- C4 witness: on a concrete mixed list the wheel files move to the
front as a block and relative order is preserved. -/
theorem group_wheel_files_first_stable_partition_witness :
    (["a.tar.gz".toList, "b.whl".toList, "c.whl".toList, "d.tar.gz".toList].any
        (fun f => endsWith f whlExt) = true) ∧
    group_wheel_files_first
        ["a.tar.gz".toList, "b.whl".toList, "c.whl".toList, "d.tar.gz".toList] =
      ["b.whl".toList, "c.whl".toList, "a.tar.gz".toList, "d.tar.gz".toList] :=
  ⟨by decide,
    ((group_wheel_files_first_stable_partition
        ["a.tar.gz".toList, "b.whl".toList, "c.whl".toList, "d.tar.gz".toList]).2
      (by decide)).trans (by decide)⟩

/-- C1: `skip_upload` returns true iff `skip_existing` is set and the
response is a 409, or a 400 whose reason starts with the
filename-specific phrase or the generic "File already exists" phrase;
in particular it is false whenever `skip_existing` is false. -/
theorem skip_upload_classifies (response : Response) (skip_existing : Bool)
    (package : Package) :
    skip_upload response skip_existing package = true ↔
      (skip_existing = true ∧
        (response.status_code = 409 ∨
          (response.status_code = 400 ∧
            (startsWith response.reason
                ("A file named \"".toList ++ package.basefilename ++
                  "\" already exists for".toList) = true ∨
              startsWith response.reason "File already exists".toList = true)))) := by
  simp [skip_upload, Bool.and_eq_true, Bool.or_eq_true, beq_iff_eq]

lemma upload_loop_cons_of_none (s : Settings) (env : Env) (sigs : Str → Option Str)
    (url f : Str) (rest : List Str)
    (h : (process_file s env sigs url f).2 = none) :
    upload_loop s env sigs url (f :: rest) =
      ((process_file s env sigs url f).1 ++ (upload_loop s env sigs url rest).1,
        (upload_loop s env sigs url rest).2) := by
  have hsplit : process_file s env sigs url f =
      ((process_file s env sigs url f).1, none) := by
    rw [← h]
  simp only [upload_loop]
  rw [hsplit]

lemma upload_loop_cons_of_some (s : Settings) (env : Env) (sigs : Str → Option Str)
    (url f : Str) (rest : List Str) (e : UploadError)
    (h : (process_file s env sigs url f).2 = some e) :
    upload_loop s env sigs url (f :: rest) =
      ((process_file s env sigs url f).1, some e) := by
  have hsplit : process_file s env sigs url f =
      ((process_file s env sigs url f).1, some e) := by
    rw [← h]
  simp only [upload_loop]
  rw [hsplit]

lemma upload_loop_append_of_none (s : Settings) (env : Env) (sigs : Str → Option Str)
    (url : Str) (pre rest : List Str)
    (hpre : ∀ g ∈ pre, (process_file s env sigs url g).2 = none) :
    upload_loop s env sigs url (pre ++ rest) =
      (tracesOf s env sigs url pre ++ (upload_loop s env sigs url rest).1,
        (upload_loop s env sigs url rest).2) := by
  induction pre with
  | nil => simp [tracesOf]
  | cons g pre' ih =>
    rw [List.cons_append,
      upload_loop_cons_of_none s env sigs url g (pre' ++ rest)
        (hpre g (List.mem_cons_self g pre')),
      ih (fun q hq => hpre q (List.mem_cons_of_mem g hq))]
    simp [tracesOf, List.append_assoc]

lemma process_file_redirect (s : Settings) (env : Env) (sigs : Str → Option Str)
    (url f : Str)
    (hns : (s.skip_existing && env.package_is_uploaded (env.from_filename f s.comment)) = false)
    (hred : (env.upload_resp (env.from_filename f s.comment)).is_redirect = true) :
    process_file s env sigs url f =
      (preflightEvents s (env.from_filename f s.comment) ++
        signatureEvents s sigs f (env.from_filename f s.comment) ++
        [Event.uploadCall f],
       some (UploadError.redirectDetected
         (redirectMessage url (env.upload_resp (env.from_filename f s.comment))))) := by
  simp [process_file, hns, hred]

lemma process_file_preflight_skip (s : Settings) (env : Env) (sigs : Str → Option Str)
    (url f : Str)
    (hskip : s.skip_existing = true)
    (hup : env.package_is_uploaded (env.from_filename f s.comment) = true) :
    process_file s env sigs url f =
      ([Event.packageIsUploaded (env.from_filename f s.comment).basefilename,
        Event.message (skipMessage (env.from_filename f s.comment))], none) := by
  simp [process_file, preflightEvents, hskip, hup]

lemma process_file_dup_response (s : Settings) (env : Env) (sigs : Str → Option Str)
    (url f : Str)
    (hns : (s.skip_existing && env.package_is_uploaded (env.from_filename f s.comment)) = false)
    (hnored : (env.upload_resp (env.from_filename f s.comment)).is_redirect = false)
    (hdup : skip_upload (env.upload_resp (env.from_filename f s.comment)) s.skip_existing
        (env.from_filename f s.comment) = true) :
    process_file s env sigs url f =
      (preflightEvents s (env.from_filename f s.comment) ++
        signatureEvents s sigs f (env.from_filename f s.comment) ++
        [Event.uploadCall f] ++
        [Event.message (skipMessage (env.from_filename f s.comment))], none) := by
  simp [process_file, hns, hnored, hdup]

lemma mem_signatureEvents {s : Settings} {sigs : Str → Option Str} {f : Str}
    {package : Package} {e : Event} (he : e ∈ signatureEvents s sigs f package) :
    isSigAttach e = true ∧ isRepoCall e = false := by
  unfold signatureEvents at he
  cases hm : sigs package.signed_basefilename with
  | some sigFile =>
    rw [hm] at he
    simp only [List.mem_singleton] at he
    subst he
    exact ⟨rfl, rfl⟩
  | none =>
    rw [hm] at he
    by_cases hs : s.sign
    · rw [if_pos hs] at he
      simp only [List.mem_singleton] at he
      subst he
      exact ⟨rfl, rfl⟩
    · rw [if_neg hs] at he
      exact absurd he (List.not_mem_nil e)

lemma mem_preflightEvents {s : Settings} {package : Package} {e : Event}
    (he : e ∈ preflightEvents s package) :
    e = Event.packageIsUploaded package.basefilename := by
  unfold preflightEvents at he
  by_cases hs : s.skip_existing
  · rw [if_pos hs] at he
    simpa using he
  · rw [if_neg hs] at he
    exact absurd he (List.not_mem_nil e)

/-- When the pre-flight check does not skip the file, the per-file trace
is: pre-flight events, signature events, the upload call, then a tail
free of signature and repository operations. -/
lemma process_file_shape (s : Settings) (env : Env) (sigs : Str → Option Str)
    (url f : Str)
    (hns : (s.skip_existing && env.package_is_uploaded (env.from_filename f s.comment)) = false) :
    ∃ tail,
      (process_file s env sigs url f).1 =
        preflightEvents s (env.from_filename f s.comment) ++
          signatureEvents s sigs f (env.from_filename f s.comment) ++
          [Event.uploadCall f] ++ tail ∧
      ∀ e ∈ tail, isSigAttach e = false ∧ isRepoCall e = false := by
  by_cases hred : (env.upload_resp (env.from_filename f s.comment)).is_redirect = true
  · refine ⟨[], ?_, by simp⟩
    rw [process_file_redirect s env sigs url f hns hred]
    simp
  · have hnored : (env.upload_resp (env.from_filename f s.comment)).is_redirect = false :=
      Bool.eq_false_iff.mpr hred
    by_cases hdup : skip_upload (env.upload_resp (env.from_filename f s.comment))
        s.skip_existing (env.from_filename f s.comment) = true
    · refine ⟨[Event.message (skipMessage (env.from_filename f s.comment))], ?_, by simp [isSigAttach, isRepoCall]⟩
      rw [process_file_dup_response s env sigs url f hns hnored hdup]
    · refine ⟨[Event.checkStatusCode
          (env.upload_resp (env.from_filename f s.comment)).status_code s.verbose], ?_,
        by simp [isSigAttach, isRepoCall]⟩
      have hdup' : skip_upload (env.upload_resp (env.from_filename f s.comment))
          s.skip_existing (env.from_filename f s.comment) = false :=
        Bool.eq_false_iff.mpr hdup
      simp [process_file, hns, hnored, hdup']

/-- C2: if a file's upload response is a redirect, the orchestrator
raises `RedirectDetected` with the message naming the repository URL and
the response's location header; the file's trace stops right after the
upload call (no duplicate classification, no status check), and no
later file in the batch contributes any event, even though the earlier
files succeeded. -/
theorem redirect_aborts_batch (s : Settings) (env : Env) (sigs : Str → Option Str)
    (url : Str) (pre : List Str) (f : Str) (post : List Str)
    (hpre : ∀ g ∈ pre, (process_file s env sigs url g).2 = none)
    (hns : (s.skip_existing && env.package_is_uploaded (env.from_filename f s.comment)) = false)
    (hred : (env.upload_resp (env.from_filename f s.comment)).is_redirect = true) :
    upload_loop s env sigs url (pre ++ f :: post) =
      (tracesOf s env sigs url pre ++
        (preflightEvents s (env.from_filename f s.comment) ++
          signatureEvents s sigs f (env.from_filename f s.comment) ++
          [Event.uploadCall f]),
       some (UploadError.redirectDetected
         (redirectMessage url (env.upload_resp (env.from_filename f s.comment))))) := by
  have hl : upload_loop s env sigs url (f :: post) =
      (preflightEvents s (env.from_filename f s.comment) ++
        signatureEvents s sigs f (env.from_filename f s.comment) ++
        [Event.uploadCall f],
       some (UploadError.redirectDetected
         (redirectMessage url (env.upload_resp (env.from_filename f s.comment))))) := by
    simp only [upload_loop]
    rw [process_file_redirect s env sigs url f hns hred]
  rw [upload_loop_append_of_none s env sigs url pre (f :: post) hpre, hl]

/-- C2 witness: with three files where the second gets a redirect
response, the first file is fully processed, the batch aborts with the
redirect error, and the third file contributes nothing. -/
theorem redirect_aborts_batch_witness :
    upload_loop sBase envMixed (fun _ => none) sBase.repository_url
        (["a.tar.gz".toList] ++ "b.tar.gz".toList :: ["c.tar.gz".toList]) =
      (tracesOf sBase envMixed (fun _ => none) sBase.repository_url ["a.tar.gz".toList] ++
        (preflightEvents sBase (envMixed.from_filename "b.tar.gz".toList sBase.comment) ++
          signatureEvents sBase (fun _ => none) "b.tar.gz".toList
            (envMixed.from_filename "b.tar.gz".toList sBase.comment) ++
          [Event.uploadCall "b.tar.gz".toList]),
       some (UploadError.redirectDetected
         (redirectMessage sBase.repository_url
           (envMixed.upload_resp (envMixed.from_filename "b.tar.gz".toList sBase.comment))))) :=
  redirect_aborts_batch sBase envMixed (fun _ => none) sBase.repository_url
    ["a.tar.gz".toList] "b.tar.gz".toList ["c.tar.gz".toList]
    (by decide) (by decide) (by decide)

/-- C3: with skip-existing enabled and the pre-flight check reporting
the package as already uploaded, the file's whole trace is the
pre-flight call and the skip message — no signature is attached,
signing is not invoked, upload is never called for the file — and the
loop moves on to the remaining files. -/
theorem preflight_skip_short_circuit (s : Settings) (env : Env) (sigs : Str → Option Str)
    (url f : Str) (rest : List Str)
    (hskip : s.skip_existing = true)
    (hup : env.package_is_uploaded (env.from_filename f s.comment) = true) :
    process_file s env sigs url f =
      ([Event.packageIsUploaded (env.from_filename f s.comment).basefilename,
        Event.message (skipMessage (env.from_filename f s.comment))], none) ∧
    upload_loop s env sigs url (f :: rest) =
      ([Event.packageIsUploaded (env.from_filename f s.comment).basefilename,
        Event.message (skipMessage (env.from_filename f s.comment))] ++
          (upload_loop s env sigs url rest).1,
        (upload_loop s env sigs url rest).2) := by
  have h1 := process_file_preflight_skip s env sigs url f hskip hup
  refine ⟨h1, ?_⟩
  rw [upload_loop_cons_of_none s env sigs url f rest (by rw [h1]), h1]

/-- C3 witness: a file reported as already uploaded is skipped with only
the pre-flight call and the skip message in its trace. -/
theorem preflight_skip_short_circuit_witness :
    process_file sSkip envUploaded (fun _ => none) sBase.repository_url "a.tar.gz".toList =
      ([Event.packageIsUploaded "a.tar.gz".toList,
        Event.message (skipMessage (pkgOf "a.tar.gz".toList))], none) :=
  ((preflight_skip_short_circuit sSkip envUploaded (fun _ => none) sBase.repository_url
      "a.tar.gz".toList ["b.tar.gz".toList] (by decide) (by decide)).1).trans (by decide)

/-- C6: when the package's signed filename has a matching supplied
signature, the signature-attachment operations in the file's trace are
exactly one `add_gpg_signature` with that signature file: `sign` is
never invoked, even with signing enabled, and at most one signature is
attached. -/
theorem supplied_signature_priority (s : Settings) (env : Env) (sigs : Str → Option Str)
    (url f sigFile : Str)
    (hns : (s.skip_existing && env.package_is_uploaded (env.from_filename f s.comment)) = false)
    (hmatch : sigs (env.from_filename f s.comment).signed_basefilename = some sigFile) :
    (process_file s env sigs url f).1.filter isSigAttach =
      [Event.addGpgSignature f sigFile
        (env.from_filename f s.comment).signed_basefilename] := by
  obtain ⟨tail, hshape, htail⟩ := process_file_shape s env sigs url f hns
  have h2 : signatureEvents s sigs f (env.from_filename f s.comment) =
      [Event.addGpgSignature f sigFile (env.from_filename f s.comment).signed_basefilename] := by
    unfold signatureEvents
    rw [hmatch]
  have h1 : ∀ e ∈ preflightEvents s (env.from_filename f s.comment), isSigAttach e = false := by
    intro e he
    rw [mem_preflightEvents he]
    rfl
  rw [hshape, h2, List.filter_append, List.filter_append, List.filter_append,
    (List.filter_eq_nil_iff (l := preflightEvents s (env.from_filename f s.comment))).mpr
      (fun e he => by simp [h1 e he]),
    (List.filter_eq_nil_iff (l := tail)).mpr (fun e he => by simp [(htail e he).1])]
  simp [isSigAttach]

/-- C6 witness: a supplied `.asc` signature matching the payload's
signed filename is attached and `sign` never runs, although signing is
enabled in the settings. -/
theorem supplied_signature_priority_witness :
    (process_file sBase envOk
        (signaturesOf ["dist/a.tar.gz".toList, "dist/a.tar.gz.asc".toList])
        sBase.repository_url "dist/a.tar.gz".toList).1.filter isSigAttach =
      [Event.addGpgSignature "dist/a.tar.gz".toList "dist/a.tar.gz.asc".toList
        "a.tar.gz.asc".toList] :=
  (supplied_signature_priority sBase envOk
      (signaturesOf ["dist/a.tar.gz".toList, "dist/a.tar.gz.asc".toList])
      sBase.repository_url "dist/a.tar.gz".toList "dist/a.tar.gz.asc".toList
      (by decide) (by decide)).trans (by decide)

/-- C8: a non-redirect response classified as already-existing (for
example a 409 with skip-existing enabled) makes the orchestrator print
the skip message and continue with the next file — there is no
status-code check event for the file — even though `package_is_uploaded`
returned false pre-flight. -/
theorem duplicate_response_skips (s : Settings) (env : Env) (sigs : Str → Option Str)
    (url f : Str) (rest : List Str)
    (hnopre : env.package_is_uploaded (env.from_filename f s.comment) = false)
    (hnored : (env.upload_resp (env.from_filename f s.comment)).is_redirect = false)
    (hdup : skip_upload (env.upload_resp (env.from_filename f s.comment)) s.skip_existing
        (env.from_filename f s.comment) = true) :
    process_file s env sigs url f =
      (preflightEvents s (env.from_filename f s.comment) ++
        signatureEvents s sigs f (env.from_filename f s.comment) ++
        [Event.uploadCall f] ++
        [Event.message (skipMessage (env.from_filename f s.comment))], none) ∧
    upload_loop s env sigs url (f :: rest) =
      ((process_file s env sigs url f).1 ++ (upload_loop s env sigs url rest).1,
        (upload_loop s env sigs url rest).2) := by
  have hns : (s.skip_existing &&
      env.package_is_uploaded (env.from_filename f s.comment)) = false := by
    rw [hnopre, Bool.and_false]
  have h1 := process_file_dup_response s env sigs url f hns hnored hdup
  exact ⟨h1, upload_loop_cons_of_none s env sigs url f rest (by rw [h1])⟩

/-- C8 witness: a 409 response with skip-existing enabled yields the
skip message after the upload call and no status-check event, though
the pre-flight check had reported the package as absent. -/
theorem duplicate_response_skips_witness :
    process_file sSkip env409 (fun _ => none) sBase.repository_url "a.tar.gz".toList =
      ([Event.packageIsUploaded "a.tar.gz".toList,
        Event.signCall "a.tar.gz".toList "gpg".toList none,
        Event.uploadCall "a.tar.gz".toList,
        Event.message (skipMessage (pkgOf "a.tar.gz".toList))], none) :=
  ((duplicate_response_skips sSkip env409 (fun _ => none) sBase.repository_url
      "a.tar.gz".toList ["b.tar.gz".toList] (by decide) (by decide) (by decide)).1).trans
    (by decide)

lemma process_file_repo_calls_off (s : Settings) (env : Env) (sigs : Str → Option Str)
    (url f : Str) (hoff : s.skip_existing = false) :
    (process_file s env sigs url f).1.filter isRepoCall = [Event.uploadCall f] := by
  have hns : (s.skip_existing &&
      env.package_is_uploaded (env.from_filename f s.comment)) = false := by
    rw [hoff, Bool.false_and]
  obtain ⟨tail, hshape, htail⟩ := process_file_shape s env sigs url f hns
  have hpre : preflightEvents s (env.from_filename f s.comment) = [] := by
    simp [preflightEvents, hoff]
  rw [hshape, hpre, List.nil_append, List.filter_append, List.filter_append,
    (List.filter_eq_nil_iff
        (l := signatureEvents s sigs f (env.from_filename f s.comment))).mpr
      (fun e he => by simp [(mem_signatureEvents he).2]),
    (List.filter_eq_nil_iff (l := tail)).mpr (fun e he => by simp [(htail e he).2])]
  simp [isRepoCall]

lemma process_file_no_preflight_off (s : Settings) (env : Env) (sigs : Str → Option Str)
    (url f : Str) (hoff : s.skip_existing = false) (b : Str) :
    Event.packageIsUploaded b ∉ (process_file s env sigs url f).1 := by
  intro hmem
  have hfil : Event.packageIsUploaded b ∈ (process_file s env sigs url f).1.filter isRepoCall :=
    List.mem_filter.mpr ⟨hmem, rfl⟩
  rw [process_file_repo_calls_off s env sigs url f hoff] at hfil
  simp at hfil

lemma process_file_no_close (s : Settings) (env : Env) (sigs : Str → Option Str)
    (url f : Str) :
    Event.close ∉ (process_file s env sigs url f).1 := by
  by_cases hc : (s.skip_existing &&
      env.package_is_uploaded (env.from_filename f s.comment)) = true
  · have hc2 : s.skip_existing = true ∧
        env.package_is_uploaded (env.from_filename f s.comment) = true := by
      simpa [Bool.and_eq_true] using hc
    rw [process_file_preflight_skip s env sigs url f hc2.1 hc2.2]
    simp
  · obtain ⟨tail, hshape, htail⟩ :=
      process_file_shape s env sigs url f (Bool.eq_false_iff.mpr hc)
    rw [hshape]
    intro hmem
    rcases List.mem_append.mp hmem with h1 | h4
    · rcases List.mem_append.mp h1 with h2 | h3
      · rcases List.mem_append.mp h2 with hp | hsg
        · exact absurd (mem_preflightEvents hp) (by simp)
        · have hr := (mem_signatureEvents hsg).2
          simp [isRepoCall] at hr
      · simp at h3
    · have hr := (htail _ h4).2
      simp [isRepoCall] at hr

lemma upload_loop_no_close (s : Settings) (env : Env) (sigs : Str → Option Str)
    (url : Str) (files : List Str) :
    Event.close ∉ (upload_loop s env sigs url files).1 := by
  induction files with
  | nil => simp [upload_loop]
  | cons f rest ih =>
    have hf := process_file_no_close s env sigs url f
    cases herr : (process_file s env sigs url f).2 with
    | some e =>
      rw [upload_loop_cons_of_some s env sigs url f rest e herr]
      simpa using hf
    | none =>
      rw [upload_loop_cons_of_none s env sigs url f rest herr]
      simp only [List.mem_append]
      rintro (hmem | hmem)
      · exact hf hmem
      · exact ih hmem

lemma upload_loop_no_preflight_off (s : Settings) (env : Env) (sigs : Str → Option Str)
    (url : Str) (files : List Str) (hoff : s.skip_existing = false) (b : Str) :
    Event.packageIsUploaded b ∉ (upload_loop s env sigs url files).1 := by
  induction files with
  | nil => simp [upload_loop]
  | cons f rest ih =>
    have hf := process_file_no_preflight_off s env sigs url f hoff b
    cases herr : (process_file s env sigs url f).2 with
    | some e =>
      rw [upload_loop_cons_of_some s env sigs url f rest e herr]
      simpa using hf
    | none =>
      rw [upload_loop_cons_of_none s env sigs url f rest herr]
      simp only [List.mem_append]
      rintro (hmem | hmem)
      · exact hf hmem
      · exact ih hmem

lemma upload_loop_repo_calls_off (s : Settings) (env : Env) (sigs : Str → Option Str)
    (url : Str) (files : List Str) (hoff : s.skip_existing = false)
    (hnone : (upload_loop s env sigs url files).2 = none) :
    (upload_loop s env sigs url files).1.filter isRepoCall =
      files.map Event.uploadCall := by
  induction files with
  | nil => simp [upload_loop]
  | cons f rest ih =>
    have hfe := process_file_repo_calls_off s env sigs url f hoff
    cases herr : (process_file s env sigs url f).2 with
    | some e =>
      rw [upload_loop_cons_of_some s env sigs url f rest e herr] at hnone
      simp at hnone
    | none =>
      rw [upload_loop_cons_of_none s env sigs url f rest herr] at hnone ⊢
      have hnone2 : (upload_loop s env sigs url rest).2 = none := hnone
      show List.filter isRepoCall ((process_file s env sigs url f).1 ++
          (upload_loop s env sigs url rest).1) = List.map Event.uploadCall (f :: rest)
      rw [List.filter_append, hfe, ih hnone2]
      rfl

lemma upload_eq_error (s : Settings) (env : Env) (fs : FileSystem) (dists : List Str)
    (m : Str) (hfd : find_dists fs dists = Except.error m) :
    upload s env fs dists = ([], some (UploadError.valueError m)) := by
  unfold upload
  rw [hfd]

lemma upload_eq_urlfail (s : Settings) (env : Env) (fs : FileSystem) (dists : List Str)
    (resolved : List Str) (hfd : find_dists fs dists = Except.ok resolved)
    (hok : env.repository_url_ok = false) :
    upload s env fs dists = ([], some UploadError.repositoryURLError) := by
  unfold upload
  rw [hfd, hok]
  rfl

lemma upload_eq_ok (s : Settings) (env : Env) (fs : FileSystem) (dists : List Str)
    (resolved : List Str) (evs : List Event) (err : Option UploadError)
    (hfd : find_dists fs dists = Except.ok resolved)
    (hok : env.repository_url_ok = true)
    (hl : upload_loop s env (signaturesOf resolved) s.repository_url
        (resolved.filter (fun i => !(endsWith i ascExt))) = (evs, err)) :
    upload s env fs dists =
      ([Event.message ("Uploading distributions to ".toList ++ s.repository_url),
        Event.createRepository] ++ evs ++
          (match err with | none => [Event.close] | some _ => []),
       err) := by
  unfold upload
  rw [hfd, hok]
  simp only [hl]
  cases err with
  | none => simp
  | some e => simp

/-- C7 (amended): the repository client's `close()` runs exactly once
when the whole batch completes without an exception; on every aborting
path — resolution failure, redirect, failed status check — `close()` is
not called at all, because the call sits after the loop and not in a
`finally` block. -/
theorem close_called_iff_no_error (s : Settings) (env : Env) (fs : FileSystem)
    (dists : List Str) :
    (upload s env fs dists).1.count Event.close =
      (if (upload s env fs dists).2 = none then 1 else 0) := by
  cases hfd : find_dists fs dists with
  | error m =>
    rw [upload_eq_error s env fs dists m hfd]
    simp
  | ok resolved =>
    cases hok : env.repository_url_ok with
    | false =>
      rw [upload_eq_urlfail s env fs dists resolved hfd hok]
      simp
    | true =>
      rcases hl : upload_loop s env (signaturesOf resolved) s.repository_url
          (resolved.filter (fun i => !(endsWith i ascExt))) with ⟨evs, err⟩
      rw [upload_eq_ok s env fs dists resolved evs err hfd hok hl]
      have hnoc : Event.close ∉ evs := by
        have hn := upload_loop_no_close s env (signaturesOf resolved) s.repository_url
          (resolved.filter (fun i => !(endsWith i ascExt)))
        rw [hl] at hn
        exact hn
      cases err with
      | none =>
        simp [List.count_append, List.count_eq_zero.mpr hnoc, List.count_cons]
      | some e =>
        simp [List.count_append, List.count_eq_zero.mpr hnoc, List.count_cons]

/-- C7 counterexample: on a redirect abort the trace contains no
`close()` call at all, refuting "close is called exactly once on every
exit path". -/
theorem close_skipped_on_redirect_abort :
    (upload sBase envRedirect fsAll ["a.tar.gz".toList]).2 =
      some (UploadError.redirectDetected
        (redirectMessage sBase.repository_url respRedirect)) ∧
    Event.close ∉ (upload sBase envRedirect fsAll ["a.tar.gz".toList]).1 := by
  decide

/-- C10: with skip-existing disabled, `package_is_uploaded` is never
called on any file, and on a successful batch the repository calls are
exactly one `upload` per payload file followed by the final `close`. -/
theorem skip_existing_disabled_no_preflight (s : Settings) (env : Env) (fs : FileSystem)
    (dists : List Str) (hoff : s.skip_existing = false) :
    (∀ b, Event.packageIsUploaded b ∉ (upload s env fs dists).1) ∧
    (∀ resolved, find_dists fs dists = Except.ok resolved →
      (upload s env fs dists).2 = none →
      (upload s env fs dists).1.filter isRepoCall =
        (resolved.filter (fun i => !(endsWith i ascExt))).map Event.uploadCall ++
          [Event.close]) := by
  constructor
  · intro b
    cases hfd : find_dists fs dists with
    | error m =>
      rw [upload_eq_error s env fs dists m hfd]
      simp
    | ok resolved =>
      cases hok : env.repository_url_ok with
      | false =>
        rw [upload_eq_urlfail s env fs dists resolved hfd hok]
        simp
      | true =>
        rcases hl : upload_loop s env (signaturesOf resolved) s.repository_url
            (resolved.filter (fun i => !(endsWith i ascExt))) with ⟨evs, err⟩
        rw [upload_eq_ok s env fs dists resolved evs err hfd hok hl]
        have hnep : Event.packageIsUploaded b ∉ evs := by
          have hn := upload_loop_no_preflight_off s env (signaturesOf resolved)
            s.repository_url (resolved.filter (fun i => !(endsWith i ascExt))) hoff b
          rw [hl] at hn
          exact hn
        cases err with
        | none => simp [List.mem_append, hnep]
        | some e => simp [List.mem_append, hnep]
  · intro resolved hfd hnone
    cases hok : env.repository_url_ok with
    | false =>
      rw [upload_eq_urlfail s env fs dists resolved hfd hok] at hnone
      simp at hnone
    | true =>
      rcases hl : upload_loop s env (signaturesOf resolved) s.repository_url
          (resolved.filter (fun i => !(endsWith i ascExt))) with ⟨evs, err⟩
      rw [upload_eq_ok s env fs dists resolved evs err hfd hok hl] at hnone ⊢
      cases err with
      | some e => simp at hnone
      | none =>
        have hfe : evs.filter isRepoCall =
            (resolved.filter (fun i => !(endsWith i ascExt))).map Event.uploadCall := by
          have hn := upload_loop_repo_calls_off s env (signaturesOf resolved)
            s.repository_url (resolved.filter (fun i => !(endsWith i ascExt))) hoff
            (by rw [hl])
          rw [hl] at hn
          exact hn
        simp [List.filter_append, hfe, isRepoCall]

/-- C10 witness: a two-file batch with skip-existing disabled makes no
pre-flight call; the repository calls are the two uploads then the
close. -/
theorem skip_existing_disabled_no_preflight_witness :
    Event.packageIsUploaded "a.tar.gz".toList ∉
      (upload sBase envOk fsTwo ["a.tar.gz".toList, "b.tar.gz".toList]).1 ∧
    (upload sBase envOk fsTwo ["a.tar.gz".toList, "b.tar.gz".toList]).1.filter isRepoCall =
      [Event.uploadCall "a.tar.gz".toList, Event.uploadCall "b.tar.gz".toList,
        Event.close] :=
  ⟨(skip_existing_disabled_no_preflight sBase envOk fsTwo
      ["a.tar.gz".toList, "b.tar.gz".toList] (by decide)).1 "a.tar.gz".toList,
   ((skip_existing_disabled_no_preflight sBase envOk fsTwo
        ["a.tar.gz".toList, "b.tar.gz".toList] (by decide)).2
      ["a.tar.gz".toList, "b.tar.gz".toList] (by rfl) (by decide)).trans (by decide)⟩

lemma find_dists_loop_error (fs : FileSystem) (pre : List Str) (pat : Str)
    (post : List Str)
    (hpre : ∀ q ∈ pre, fs.pathExists q = true ∨ fs.glob q ≠ [])
    (hex : fs.pathExists pat = false) (hglob : fs.glob pat = []) :
    find_dists_loop fs (pre ++ pat :: post) =
      Except.error ("Cannot find file (or expand pattern): '".toList ++ pat ++
        "'".toList) := by
  induction pre with
  | nil =>
    simp [find_dists_loop, hex, hglob]
  | cons q pre' ih =>
    have ih' := ih (fun r hr => hpre r (List.mem_cons_of_mem q hr))
    rcases hpre q (List.mem_cons_self q pre') with hq | hq
    · simp [find_dists_loop, hq, ih', Except.map]
    · cases hpq : fs.pathExists q with
      | true => simp [find_dists_loop, hpq, ih', Except.map]
      | false =>
        rcases hgq : fs.glob q with _ | ⟨a, l⟩
        · exact absurd hgq hq
        · simp [find_dists_loop, hpq, hgq, ih', Except.map]

/-- C5: an input containing a path that neither exists nor matches any
glob makes `find_dists` fail with a `ValueError` naming that exact
pattern, and `upload` then raises that error with an empty trace: no
repository client is created and no file from any pattern is
uploaded. -/
theorem unmatched_pattern_aborts (fs : FileSystem) (s : Settings) (env : Env)
    (pre : List Str) (pat : Str) (post : List Str)
    (hpre : ∀ q ∈ pre, fs.pathExists q = true ∨ fs.glob q ≠ [])
    (hex : fs.pathExists pat = false) (hglob : fs.glob pat = []) :
    find_dists fs (pre ++ pat :: post) =
      Except.error ("Cannot find file (or expand pattern): '".toList ++ pat ++
        "'".toList) ∧
    upload s env fs (pre ++ pat :: post) =
      ([], some (UploadError.valueError
        ("Cannot find file (or expand pattern): '".toList ++ pat ++ "'".toList))) := by
  have h1 : find_dists fs (pre ++ pat :: post) =
      Except.error ("Cannot find file (or expand pattern): '".toList ++ pat ++
        "'".toList) := by
    unfold find_dists
    rw [find_dists_loop_error fs pre pat post hpre hex hglob]
    rfl
  exact ⟨h1, upload_eq_error s env fs _ _ h1⟩

/-- C5 witness: a batch with an existing file, a matchless pattern and
another existing file aborts with the error naming the pattern and an
empty trace. -/
theorem unmatched_pattern_aborts_witness :
    upload sBase envOk fsTwo
        (["a.tar.gz".toList] ++ "no*match".toList :: ["b.tar.gz".toList]) =
      ([], some (UploadError.valueError
        ("Cannot find file (or expand pattern): '".toList ++ "no*match".toList ++
          "'".toList))) :=
  (unmatched_pattern_aborts fsTwo sBase envOk ["a.tar.gz".toList] "no*match".toList
    ["b.tar.gz".toList] (by decide) (by decide) (by decide)).2

/-- C9: a path that exists on the filesystem is included verbatim
(`find_dists` prepends it and recurses), and the result of `find_dists`
never depends on what `glob` would answer on existing paths — glob
expansion is consulted only for non-existing paths. -/
theorem existing_path_verbatim :
    (∀ (fs : FileSystem) (f : Str) (rest : List Str), fs.pathExists f = true →
      find_dists_loop fs (f :: rest) =
        (find_dists_loop fs rest).map (fun uploads => f :: uploads)) ∧
    (∀ (fs fs2 : FileSystem) (dists : List Str),
      (∀ p, fs2.pathExists p = fs.pathExists p) →
      (∀ p, fs.pathExists p = false → fs2.glob p = fs.glob p) →
      find_dists fs2 dists = find_dists fs dists) := by
  constructor
  · intro fs f rest h
    simp [find_dists_loop, h]
  · intro fs fs2 dists hpe hg
    unfold find_dists
    have hloop : ∀ l : List Str, find_dists_loop fs2 l = find_dists_loop fs l := by
      intro l
      induction l with
      | nil => rfl
      | cons q rest ih =>
        simp only [find_dists_loop]
        rw [hpe q, ih]
        cases hq : fs.pathExists q with
        | true => rfl
        | false => rw [hg q hq]
    rw [hloop]

/-- C9 witness: a file whose name contains a glob metacharacter but
exists is taken verbatim, and changing the glob answers on existing
paths does not change `find_dists` at all. -/
theorem existing_path_verbatim_witness :
    find_dists_loop fsStar ["a*b.tar.gz".toList] =
      (find_dists_loop fsStar []).map
        (fun uploads => "a*b.tar.gz".toList :: uploads) ∧
    find_dists fsStar2 ["a*b.tar.gz".toList] = find_dists fsStar ["a*b.tar.gz".toList] :=
  ⟨existing_path_verbatim.1 fsStar "a*b.tar.gz".toList [] (by decide),
   existing_path_verbatim.2 fsStar fsStar2 ["a*b.tar.gz".toList]
     (fun p => rfl)
     (fun p hp => by
       have hp2 : (p == "a*b.tar.gz".toList) = false := hp
       show (if p == "a*b.tar.gz".toList then ["zz".toList] else []) = fsStar.glob p
       rw [hp2]
       rfl)⟩

end Twine
